import Mathlib

/-!
Verification of the sudoku generator (src/main.rs).

The program is embedded shallowly:

* `Vec<Vec<i32>>` grids become `List (List Int)`; the dimensions (always
  9 x 9 in the program) are tracked by the predicate `wf9`.
* `usize` indices become `Nat`, `i32` values become `Int`.  The solution
  counter (an `i32` that only ever starts at 0 and is incremented) is
  threaded as a returned `Nat` instead of a `&mut i32`, following the
  source's design note that the accumulator may equivalently be returned.
* Rust indexing `grid[r][c]` is modelled totally by `cellD` (default 0).
  A separate checked embedding (`cellC`, `solve_countC`, ...) returns
  `Option` and is `none` exactly when the Rust code would panic on an
  out-of-bounds index; the bounds-safety claim is settled against it.
* The recursive solver, the recursive filler and the removal loop are
  given explicit fuel.  `solve_count` from `(0,0)` on a 9 x 9 grid has
  recursion depth at most 91, so any fuel of at least 91 (we use 100)
  computes the function the Rust code computes; this is proved, not
  assumed.  The outer loop of `remove_cells` genuinely may not terminate,
  so its fuel is quantified.
* Randomness (`rng.gen_range`, the shuffled digit list) is modelled by
  universally quantified inputs: a stream `picks : Nat -> Nat x Nat` of
  cell picks, and an arbitrary permutation `nums` of the digits.
-/

/-- A sudoku grid: the embedding of `Vec<Vec<i32>>`. -/
abbrev Grid := List (List Int)

/-- Total read of `grid[r][c]` (out-of-range reads give 0; the checked
embedding `cellC` below accounts for panics). -/
def cellD (g : Grid) (r c : Nat) : Int := (g.getD r []).getD c 0

/-- The assignment `grid[r][c] = v` (no-op when out of range, which never
happens for the program's 9 x 9 grids and in-range indices). -/
def setCell (g : Grid) (r c : Nat) (v : Int) : Grid :=
  g.set r ((g.getD r []).set c v)

/-- The grid is a 9 x 9 matrix, as every grid constructed by the program is. -/
def wf9 (g : Grid) : Prop := g.length = 9 ∧ ∀ row ∈ g, row.length = 9

instance : DecidablePred wf9 := fun g => by unfold wf9; infer_instance

/-- Embedding of `used_in_row`: `grid[row].contains(&num)`. -/
def used_in_row (g : Grid) (row : Nat) (num : Int) : Bool :=
  (g.getD row []).contains num

/-- Embedding of `used_in_col`: scan all rows for `row[col] == num`. -/
def used_in_col (g : Grid) (col : Nat) (num : Int) : Bool :=
  g.any (fun row => row.getD col 0 == num)

/-- Embedding of `used_in_box`: scan the 3 x 3 block with origin
`(row, col)`, i.e. cells `grid[i + row][j + col]` for `i j < 3`. -/
def used_in_box (g : Grid) (row col : Nat) (num : Int) : Bool :=
  (List.range 3).any fun i =>
    (List.range 3).any fun j => cellD g (i + row) (j + col) == num

/-- Embedding of `is_safe`: the digit is used in neither the row, the
column, nor the box with origin `(row - row % 3, col - col % 3)`. -/
def is_safe (g : Grid) (row col : Nat) (num : Int) : Bool :=
  !used_in_row g row num && !used_in_col g col num &&
    !used_in_box g (row - row % 3) (col - col % 3) num

/-- The candidate digits `1..=9` tried by `solve_count`. -/
def digits : List Int := [1, 2, 3, 4, 5, 6, 7, 8, 9]

/-- Embedding of `solve_count`, with the `&mut i32` counter threaded as the
returned `Nat` and explicit fuel (first argument).  On a 9 x 9 grid the
recursion depth from `(0, 0)` is at most 91, so any fuel of at least 91
yields the count the Rust function computes (see `solve_count_counts` and
`solve_count_complete` below); the fuel-exhausted result 0 is never
reached then. -/
def solve_count : Nat → Grid → Nat → Nat → Nat
  | 0, _, _, _ => 0
  | fuel + 1, g, row, col =>
    if row = 8 ∧ col = 9 then 1
    else
      let r := if col = 9 then row + 1 else row
      let c := if col = 9 then 0 else col
      if cellD g r c = 0 then
        digits.foldl
          (fun acc num =>
            if is_safe g r c num then
              acc + solve_count fuel (setCell g r c num) r (c + 1)
            else acc)
          0
      else solve_count fuel g r (c + 1)

/-- Embedding of `find_empty_location` on one row: index of the first 0. -/
def findZeroIn : List Int → Option Nat
  | [] => none
  | x :: xs => if x = 0 then some 0 else (findZeroIn xs).map (· + 1)

/-- Row-major scan for the first empty cell, rows numbered from `i`. -/
def findEmptyFrom : List (List Int) → Nat → Option (Nat × Nat)
  | [], _ => none
  | row :: rest, i =>
    match findZeroIn row with
    | some j => some (i, j)
    | none => findEmptyFrom rest (i + 1)

/-- Embedding of `find_empty_location`: coordinates of the first cell
containing 0 in row-major order, or `none`. -/
def find_empty_location (g : Grid) : Option (Nat × Nat) := findEmptyFrom g 0

/-- Embedding of `fill_recursive` with explicit fuel.  Success (`true` plus
the mutated grid) is `some grid`; failure (`false`, grid restored) is
`none`.  The loop over `numbers` returning at the first digit whose branch
succeeds is `List.findSome?`.  Fuel exceeding the number of empty cells is
enough (`fill_recursive_total` below). -/
def fill_recursive : Nat → Grid → List Int → Option Grid
  | 0, _, _ => none
  | fuel + 1, g, nums =>
    match find_empty_location g with
    | none => some g
    | some (r, c) =>
      nums.findSome? fun num =>
        if is_safe g r c num then fill_recursive fuel (setCell g r c num) nums
        else none

/-- One body iteration of the 100-attempt loop inside `remove_cells`: pick
`(row, col)`; if that cell is nonzero, zero it, run `solve_count` on a
snapshot, and either keep it zero (decrementing `cells`) or restore the
backup. -/
def attempt (g : Grid) (cells : Int) (pick : Nat × Nat) : Grid × Int :=
  if cellD g pick.1 pick.2 ≠ 0 then
    let backup := cellD g pick.1 pick.2
    let g' := setCell g pick.1 pick.2 0
    let count := solve_count 100 g' 0 0
    if count ≠ 1 then (setCell g' pick.1 pick.2 backup, cells)
    else (g', cells - 1)
  else (g, cells)

/-- The `for _ in 0..100` pass of `remove_cells`, consuming picks from the
stream `picks` starting at index `idx`. -/
def runPass : Nat → (Nat → Nat × Nat) → Nat → Grid → Int → Grid × Int
  | 0, _, _, g, cells => (g, cells)
  | n + 1, picks, idx, g, cells =>
    let s := attempt g cells (picks idx)
    runPass n picks (idx + 1) s.1 s.2

/-- The outer `while cells < old_cells || cells > difficulty` loop of
`remove_cells`, with explicit fuel (one unit per condition check); `none`
means the fuel ran out before the loop exited.  After each pass the source
sets `old_cells = cells`, which is modelled by passing the new cell count
for both parameters. -/
def removeLoop : Nat → (Nat → Nat × Nat) → Nat → Grid → Int → Int → Int →
    Option Grid
  | 0, _, _, _, _, _, _ => none
  | fuel + 1, picks, idx, g, cells, old_cells, difficulty =>
    if cells < old_cells ∨ difficulty < cells then
      let s := runPass 100 picks idx g cells
      removeLoop fuel picks (idx + 100) s.1 s.2 s.2 difficulty
    else some g

/-- Embedding of `remove_cells` (fuel first): `cells` starts at 81 and
`old_cells` at 82. -/
def remove_cells (fuel : Nat) (g : Grid) (difficulty : Int)
    (picks : Nat → Nat × Nat) : Option Grid :=
  removeLoop fuel picks 0 g 81 82 difficulty

/-! ## Specification-side notions

These formalise the spec's language about grids: entry ranges, the
row/column/box constraints, and the set of complete rule-valid grids
extending a partial grid.  Complete rule-valid grids (entries 1..9) are
represented by functions `Fin 9 → Fin 9 → Fin 9`, value `d` standing for
digit `d + 1`; this makes them a `Fintype`, so completions can be counted.
-/

/-- All entries of the grid lie in `[0, 9]`. -/
def entries09 (g : Grid) : Prop :=
  ∀ i j : Fin 9, 0 ≤ cellD g i j ∧ cellD g i j ≤ 9

instance : DecidablePred entries09 := fun g => by
  unfold entries09; infer_instance

/-- Two cell positions share a row, a column, or an (aligned 3 x 3) box. -/
def sameUnit (p q : Fin 9 × Fin 9) : Prop :=
  p.1 = q.1 ∨ p.2 = q.2 ∨
    ((p.1 : Nat) / 3 = (q.1 : Nat) / 3 ∧ (p.2 : Nat) / 3 = (q.2 : Nat) / 3)

instance : DecidableRel sameUnit := fun p q => by unfold sameUnit; infer_instance

/-- The nonzero entries of the grid violate no row, column or box
uniqueness constraint. -/
def conflictFree (g : Grid) : Prop :=
  ∀ p q : Fin 9 × Fin 9, p ≠ q → sameUnit p q →
    cellD g p.1 p.2 ≠ 0 → cellD g p.1 p.2 ≠ cellD g q.1 q.2

instance : DecidablePred conflictFree := fun g => by
  unfold conflictFree; infer_instance

/-- Candidate complete grids: entry `d : Fin 9` stands for digit `d + 1`. -/
abbrev Sol := Fin 9 → Fin 9 → Fin 9

/-- A complete assignment is rule-valid: within every row, every column and
every box, cells hold pairwise distinct digits (with 9 cells and 9 digits
this is the same as containing each of 1..9 exactly once, see
`exactlyOnce_of_pairwise`). -/
def validSol (f : Sol) : Prop :=
  ∀ p q : Fin 9 × Fin 9, p ≠ q → sameUnit p q → f p.1 p.2 ≠ f q.1 q.2

instance : DecidablePred validSol := fun f => by unfold validSol; infer_instance

/-- The complete grid `f` agrees with `g` on every nonzero cell of `g`. -/
def solExtends (g : Grid) (f : Sol) : Prop :=
  ∀ i j : Fin 9, cellD g i j ≠ 0 → ((f i j : Int) + 1 = cellD g i j)

instance : ∀ g, DecidablePred (solExtends g) := fun g f => by
  unfold solExtends; infer_instance

/-- Number of nonzero (filled) cells of a 9 x 9 grid. -/
def countFilled (g : Grid) : Nat :=
  ((Finset.univ : Finset (Fin 9 × Fin 9)).filter
    fun p => cellD g p.1 p.2 ≠ 0).card

/-- Number of zero (empty) cells of a 9 x 9 grid. -/
def countZeros (g : Grid) : Nat :=
  ((Finset.univ : Finset (Fin 9 × Fin 9)).filter
    fun p => cellD g p.1 p.2 = 0).card

/-- Every cell of the 9 x 9 grid is filled (nonzero). -/
def complete (g : Grid) : Prop := ∀ i j : Fin 9, cellD g i j ≠ 0

instance : DecidablePred complete := fun g => by unfold complete; infer_instance

/-- The nonzero cells of `g` all agree with `g0` (the spec's "the puzzle is
a subset of the solution"). -/
def subsetOf (g g0 : Grid) : Prop :=
  ∀ p : Fin 9 × Fin 9, cellD g p.1 p.2 ≠ 0 → cellD g p.1 p.2 = cellD g0 p.1 p.2

instance : ∀ g0, DecidablePred (subsetOf · g0) := fun g0 g => by
  unfold subsetOf; infer_instance

/-- Spec's "digit appears nowhere else": no cell of the row, column or box
of `p` other than `p` itself holds digit `d`. -/
def nowhereElse (g : Grid) (p : Fin 9 × Fin 9) (d : Int) : Prop :=
  ∀ q : Fin 9 × Fin 9, q ≠ p → sameUnit p q → cellD g q.1 q.2 ≠ d

instance : ∀ g p, DecidablePred (nowhereElse g p) := fun g p d => by
  unfold nowhereElse; infer_instance

/-- Every row contains each of the digits 1..9 exactly once. -/
def rowOnce (h : Grid) : Prop :=
  ∀ r d : Fin 9,
    (Finset.univ.filter fun c : Fin 9 => cellD h r c = (d : Int) + 1).card = 1

/-- Every column contains each of the digits 1..9 exactly once. -/
def colOnce (h : Grid) : Prop :=
  ∀ c d : Fin 9,
    (Finset.univ.filter fun r : Fin 9 => cellD h r c = (d : Int) + 1).card = 1

/-- Every aligned 3 x 3 box contains each of the digits 1..9 exactly once
(the cells of box `(b1, b2)` are enumerated by `t : Fin 9` as
`(3 * b1 + t / 3, 3 * b2 + t % 3)`). -/
def boxOnce (h : Grid) : Prop :=
  ∀ b1 b2 : Fin 3, ∀ d : Fin 9,
    (Finset.univ.filter fun t : Fin 9 =>
      cellD h (3 * (b1 : Nat) + (t : Nat) / 3) (3 * (b2 : Nat) + (t : Nat) % 3)
        = (d : Int) + 1).card = 1

/-- Digit value of a cell holding `v ∈ [1, 9]`, as a `Fin 9` (total). -/
def digitFin (v : Int) : Fin 9 := ⟨(v.toNat - 1) % 9, Nat.mod_lt _ (by omega)⟩

/-- The all-zero starting grid built by `create_sudoku`
(`vec![vec![0; 9]; 9]`). -/
def zeroGrid : Grid := List.replicate 9 (List.replicate 9 0)

/-- A concrete complete rule-valid assignment, witnessing that the empty
9 x 9 grid is completable. -/
def canonSol : Sol := fun i j =>
  ⟨(3 * (i : Nat) + (i : Nat) / 3 + (j : Nat)) % 9, Nat.mod_lt _ (by omega)⟩

/-- A concrete complete rule-valid grid (rows are shifts of 1..9). -/
def gridA : Grid :=
  [[1, 2, 3, 4, 5, 6, 7, 8, 9],
   [4, 5, 6, 7, 8, 9, 1, 2, 3],
   [7, 8, 9, 1, 2, 3, 4, 5, 6],
   [2, 3, 4, 5, 6, 7, 8, 9, 1],
   [5, 6, 7, 8, 9, 1, 2, 3, 4],
   [8, 9, 1, 2, 3, 4, 5, 6, 7],
   [3, 4, 5, 6, 7, 8, 9, 1, 2],
   [6, 7, 8, 9, 1, 2, 3, 4, 5],
   [9, 1, 2, 3, 4, 5, 6, 7, 8]]

/-- `gridA` with cell `(0, 0)` erased. -/
def gridA1 : Grid := setCell gridA 0 0 0

/-- A pick stream that always picks cell `(0, 0)`. -/
def constPick : Nat → Nat × Nat := fun _ => (0, 0)

/-- Grid with a single 5 at `(0, 0)`: the digit 5 appears nowhere else in
the row, column or box of `(0, 0)`, yet `is_safe` rejects placing 5 there
because the occupant of the cell itself counts. -/
def gridC5 : Grid :=
  [[5, 0, 0, 0, 0, 0, 0, 0, 0],
   [0, 0, 0, 0, 0, 0, 0, 0, 0],
   [0, 0, 0, 0, 0, 0, 0, 0, 0],
   [0, 0, 0, 0, 0, 0, 0, 0, 0],
   [0, 0, 0, 0, 0, 0, 0, 0, 0],
   [0, 0, 0, 0, 0, 0, 0, 0, 0],
   [0, 0, 0, 0, 0, 0, 0, 0, 0],
   [0, 0, 0, 0, 0, 0, 0, 0, 0],
   [0, 0, 0, 0, 0, 0, 0, 0, 0]]

/-- `gridA` with five of the six cells of an unavoidable set removed
(cells `(0,0), (0,3), (0,6), (1,0), (1,3)` of the cycle on rows 0-1,
columns 0/3/6); removing the sixth, `(1, 6)`, leaves two completions, so
that removal attempt is rejected. -/
def gridP5 : Grid :=
  [[0, 2, 3, 0, 5, 6, 0, 8, 9],
   [0, 5, 6, 0, 8, 9, 1, 2, 3],
   [7, 8, 9, 1, 2, 3, 4, 5, 6],
   [2, 3, 4, 5, 6, 7, 8, 9, 1],
   [5, 6, 7, 8, 9, 1, 2, 3, 4],
   [8, 9, 1, 2, 3, 4, 5, 6, 7],
   [3, 4, 5, 6, 7, 8, 9, 1, 2],
   [6, 7, 8, 9, 1, 2, 3, 4, 5],
   [9, 1, 2, 3, 4, 5, 6, 7, 8]]

/-- Removal order for the `remove_cells` counterexample run: 42 cells of
`gridA`, each of whose removals keeps the puzzle uniquely solvable, laid
out so that the first pass accepts 40 removals (then wastes 60 picks on
the already-empty cell `(2, 6)`) and the second pass accepts 2 more,
ending the run with 39 filled cells. -/
def pickSeq : List (Nat × Nat) :=
  [(2, 6), (5, 3), (2, 8), (8, 3), (1, 0), (8, 4), (3, 2), (4, 8), (4, 1),
   (6, 6), (0, 1), (1, 2), (4, 6), (0, 8), (2, 5), (5, 2), (7, 6), (4, 5),
   (3, 7), (6, 2), (1, 5), (6, 5), (7, 4), (5, 7), (0, 2), (8, 2), (8, 8),
   (1, 6), (6, 1), (3, 4), (0, 0), (7, 8), (8, 5), (6, 4), (8, 7), (1, 4),
   (2, 4), (8, 0), (3, 3), (0, 4), (5, 1), (2, 1)] -- 42 removable cells

/-- The pick stream for the counterexample run: 40 removals, 60 wasted
picks, 2 removals, then wasted picks forever. -/
def cexPicks : Nat → Nat × Nat := fun n =>
  (((pickSeq.take 40) ++ List.replicate 60 (2, 6) ++ pickSeq.drop 40).getD
    n (2, 6))

/-- The grid produced by the counterexample run
`remove_cells 3 gridA 40 cexPicks`: only 39 cells remain filled. -/
def gridB : Grid :=
  [[0, 0, 0, 4, 0, 6, 7, 8, 0],
   [0, 5, 0, 7, 0, 0, 0, 2, 3],
   [7, 0, 9, 1, 0, 0, 0, 5, 0],
   [2, 3, 0, 0, 0, 7, 8, 0, 1],
   [5, 0, 7, 8, 9, 0, 0, 3, 0],
   [8, 0, 0, 0, 3, 4, 5, 0, 7],
   [3, 0, 0, 6, 0, 0, 0, 1, 2],
   [6, 7, 8, 9, 0, 2, 0, 4, 0],
   [0, 1, 0, 0, 0, 0, 6, 0, 0]]

/-! ## Checked (panic-aware) embedding

Rust indexing panics when out of bounds.  The `...C` functions mirror the
solver with checked indexing: they return `none` exactly when some index
access would panic.  `solve_countC` is `some` on every 9 x 9 grid
(see `solve_countC_eq`), which is the bounds-safety claim. -/

/-- Checked read of `grid[r][c]`. -/
def cellC (g : Grid) (r c : Nat) : Option Int :=
  (g[r]?).bind fun row => row[c]?

/-- Checked `used_in_row` (the row lookup `grid[row]` is the only indexing). -/
def used_in_rowC (g : Grid) (row : Nat) (num : Int) : Option Bool :=
  (g[row]?).map fun r => r.contains num

/-- Checked `used_in_col`: scans rows in order, reading `row[col]`, with the
source's early return on a hit. -/
def used_in_colC : List (List Int) → Nat → Int → Option Bool
  | [], _, _ => some false
  | row :: rest, col, num =>
    (row[col]?).bind fun v =>
      if v == num then some true else used_in_colC rest col num

/-- The box-scan order of `used_in_box` (`i` outer, `j` inner). -/
def boxOffsets : List (Nat × Nat) :=
  [(0, 0), (0, 1), (0, 2), (1, 0), (1, 1), (1, 2), (2, 0), (2, 1), (2, 2)]

/-- Checked scan of a list of cells for `num`, with early return. -/
def scanCellsC (g : Grid) (num : Int) : List (Nat × Nat) → Option Bool
  | [] => some false
  | p :: rest =>
    (cellC g p.1 p.2).bind fun v =>
      if v == num then some true else scanCellsC g num rest

/-- Checked `used_in_box`. -/
def used_in_boxC (g : Grid) (row col : Nat) (num : Int) : Option Bool :=
  scanCellsC g num (boxOffsets.map fun p => (p.1 + row, p.2 + col))

/-- Checked `is_safe` with the `&&` short-circuit order of the source. -/
def is_safeC (g : Grid) (row col : Nat) (num : Int) : Option Bool :=
  (used_in_rowC g row num).bind fun a =>
    if a then some false
    else
      (used_in_colC g col num).bind fun b =>
        if b then some false
        else
          (used_in_boxC g (row - row % 3) (col - col % 3) num).map (!·)

/-- Checked `solve_count`: `none` exactly when some grid access would be
out of bounds (fuel exhaustion gives `some 0`, as in the unchecked
embedding). -/
def solve_countC : Nat → Grid → Nat → Nat → Option Nat
  | 0, _, _, _ => some 0
  | fuel + 1, g, row, col =>
    if row = 8 ∧ col = 9 then some 1
    else
      let r := if col = 9 then row + 1 else row
      let c := if col = 9 then 0 else col
      (cellC g r c).bind fun v =>
        if v = 0 then
          digits.foldl
            (fun acc num =>
              acc.bind fun a =>
                (is_safeC g r c num).bind fun s =>
                  if s then
                    (solve_countC fuel (setCell g r c num) r (c + 1)).map
                      (a + ·)
                  else some a)
            (some 0)
        else solve_countC fuel g r (c + 1)

set_option maxRecDepth 1000000
set_option linter.constructorNameAsVariable false
set_option linter.unusedVariables false

/-! ## Basic lemmas about cell access and update -/

lemma constPick_bounds : ∀ n, (constPick n).1 < 9 ∧ (constPick n).2 < 9 :=
  fun _ => ⟨(by omega : (0 : Nat) < 9), (by omega : (0 : Nat) < 9)⟩

lemma length_row {g : Grid} (hg : wf9 g) {r : Nat} (hr : r < 9) :
    (g.getD r []).length = 9 := by
  have hrl : r < g.length := by rw [hg.1]; exact hr
  rw [List.getD_eq_getElem?_getD, List.getElem?_eq_getElem hrl]
  exact hg.2 _ (List.getElem_mem hrl)

lemma getD_eq_getElem_of_lt {α : Type} {l : List α} {n : Nat}
    (h : n < l.length) (d : α) : l.getD n d = l[n] := by
  rw [List.getD_eq_getElem?_getD, List.getElem?_eq_getElem h]
  rfl

lemma wf9_setCell {g : Grid} (hg : wf9 g) (r c : Nat) (v : Int) :
    wf9 (setCell g r c v) := by
  by_cases hr : r < g.length
  · obtain ⟨hlen, hrows⟩ := hg
    refine ⟨by simp [setCell, hlen], ?_⟩
    intro row hrow
    rcases List.mem_or_eq_of_mem_set hrow with h | h
    · exact hrows row h
    · subst h
      rw [List.length_set]
      exact length_row ⟨hlen, hrows⟩ (by omega)
  · unfold setCell
    rw [List.set_eq_of_length_le (by omega)]
    exact hg

lemma getD_list_set_self {α : Type} {l : List α} {i : Nat} (hi : i < l.length)
    (a d : α) : (l.set i a).getD i d = a := by
  simp [List.getElem?_set_self hi]

lemma getD_list_set_ne {α : Type} {l : List α} {i j : Nat} (h : i ≠ j)
    (a d : α) : (l.set i a).getD j d = l.getD j d := by
  simp [List.getElem?_set_ne h]

lemma list_set_getD_self {α : Type} {l : List α} {i : Nat} (hi : i < l.length)
    (d : α) : l.set i (l.getD i d) = l := by
  apply List.ext_getElem?
  intro j
  by_cases h : i = j
  · subst h
    simp [List.getElem?_set_self hi, List.getElem?_eq_getElem hi]
  · simp [List.getElem?_set_ne h]

lemma cellD_setCell {g : Grid} (hg : wf9 g) {r c : Nat} (hr : r < 9) (hc : c < 9)
    (v : Int) (r' c' : Nat) :
    cellD (setCell g r c v) r' c' =
      if r = r' ∧ c = c' then v else cellD g r' c' := by
  have hrl : r < g.length := by rw [hg.1]; exact hr
  unfold cellD setCell
  by_cases hrr : r = r'
  · subst hrr
    rw [getD_list_set_self hrl]
    by_cases hcc : c = c'
    · subst hcc
      have hcl : c < (g.getD r []).length := by rw [length_row hg hr]; exact hc
      rw [getD_list_set_self hcl]
      simp
    · rw [getD_list_set_ne hcc]
      simp [hcc]
  · rw [getD_list_set_ne hrr]
    simp [hrr]

lemma setCell_setCell {g : Grid} (hg : wf9 g) {r c : Nat} (hr : r < 9)
    (v w : Int) :
    setCell (setCell g r c v) r c w = setCell g r c w := by
  have hrl : r < g.length := by rw [hg.1]; exact hr
  unfold setCell
  rw [getD_list_set_self hrl, List.set_set, List.set_set]

lemma setCell_cellD_self {g : Grid} (hg : wf9 g) {r c : Nat} (hr : r < 9)
    (hc : c < 9) : setCell g r c (cellD g r c) = g := by
  have hrl : r < g.length := by rw [hg.1]; exact hr
  have hcl : c < (g.getD r []).length := by rw [length_row hg hr]; exact hc
  unfold setCell cellD
  rw [list_set_getD_self hcl, list_set_getD_self hrl]

/-- Restoring the backed-up value after zeroing a cell reproduces the grid. -/
lemma setCell_restore {g : Grid} (hg : wf9 g) {r c : Nat} (hr : r < 9)
    (hc : c < 9) : setCell (setCell g r c 0) r c (cellD g r c) = g := by
  rw [setCell_setCell hg hr, setCell_cellD_self hg hr hc]

/-! ## Characterisation of the constraint checker -/

lemma used_in_row_iff {g : Grid} (hg : wf9 g) {r : Nat} (hr : r < 9)
    (num : Int) :
    used_in_row g r num = true ↔ ∃ c : Fin 9, cellD g r c = num := by
  unfold used_in_row
  rw [List.contains_iff_exists_mem_beq]
  constructor
  · rintro ⟨x, hx, hbeq⟩
    have hxnum : x = num := by
      have := beq_iff_eq.mp hbeq
      omega
    obtain ⟨n, hn, hx'⟩ := List.mem_iff_getElem.mp hx
    have hn9 : n < 9 := by rw [← length_row hg hr]; exact hn
    refine ⟨⟨n, hn9⟩, ?_⟩
    show cellD g r n = num
    unfold cellD
    rw [getD_eq_getElem_of_lt hn (0 : Int), hx', hxnum]
  · rintro ⟨c, hc⟩
    have hcl : (c : Nat) < (g.getD r []).length := by
      rw [length_row hg hr]; exact c.isLt
    refine ⟨(g.getD r [])[(c : Nat)], List.getElem_mem hcl, ?_⟩
    unfold cellD at hc
    rw [getD_eq_getElem_of_lt hcl (0 : Int)] at hc
    exact beq_iff_eq.mpr hc.symm

lemma used_in_col_iff {g : Grid} (hg : wf9 g) {c : Nat} (hc : c < 9)
    (num : Int) :
    used_in_col g c num = true ↔ ∃ r : Fin 9, cellD g r c = num := by
  unfold used_in_col
  rw [List.any_eq_true]
  constructor
  · rintro ⟨row, hmem, hp⟩
    obtain ⟨n, hn, hrow⟩ := List.mem_iff_getElem.mp hmem
    have hn9 : n < 9 := by rw [← hg.1]; exact hn
    refine ⟨⟨n, hn9⟩, ?_⟩
    have hget : g.getD n [] = row := by
      rw [List.getD_eq_getElem?_getD, List.getElem?_eq_getElem hn, hrow]
      rfl
    unfold cellD
    rw [hget]
    exact beq_iff_eq.mp hp
  · rintro ⟨rr, hcell⟩
    have hrl : (rr : Nat) < g.length := by rw [hg.1]; exact rr.isLt
    refine ⟨g[(rr : Nat)], List.getElem_mem hrl, ?_⟩
    unfold cellD at hcell
    have hget : g.getD (rr : Nat) [] = g[(rr : Nat)] := by
      rw [List.getD_eq_getElem?_getD, List.getElem?_eq_getElem hrl]
      rfl
    rw [hget] at hcell
    exact beq_iff_eq.mpr hcell

lemma used_in_box_iff (g : Grid) (r0 c0 : Nat) (num : Int) :
    used_in_box g r0 c0 num = true ↔
      ∃ i, i < 3 ∧ ∃ j, j < 3 ∧ cellD g (i + r0) (j + c0) = num := by
  unfold used_in_box
  simp [List.any_eq_true, List.mem_range]

/-- The checker `is_safe` at cell `p` accepts `num` exactly when no cell in
`p`'s row, column or box (including `p` itself) holds `num`. -/
lemma is_safe_iff {g : Grid} (hg : wf9 g) (p : Fin 9 × Fin 9) (num : Int) :
    is_safe g p.1 p.2 num = true ↔
      ∀ q : Fin 9 × Fin 9, sameUnit p q → cellD g q.1 q.2 ≠ num := by
  obtain ⟨pr, pc⟩ := p
  have hpr := pr.isLt
  have hpc := pc.isLt
  unfold is_safe
  simp only [Bool.and_eq_true, Bool.not_eq_true']
  constructor
  · rintro ⟨⟨h1, h2⟩, h3⟩ ⟨qr, qc⟩ hsame hval
    have hqr := qr.isLt
    have hqc := qc.isLt
    rcases hsame with h | h | h
    · have H1 : ¬∃ c : Fin 9, cellD g pr c = num := by
        rw [← used_in_row_iff hg hpr]
        simp [h1]
      apply H1
      have h' : pr = qr := h
      exact ⟨qc, by rw [h']; exact hval⟩
    · have H2 : ¬∃ r : Fin 9, cellD g r pc = num := by
        rw [← used_in_col_iff hg hpc]
        simp [h2]
      apply H2
      have h' : pc = qc := h
      exact ⟨qr, by rw [h']; exact hval⟩
    · have H3 : ¬∃ i, i < 3 ∧ ∃ j, j < 3 ∧
          cellD g (i + ((pr : Nat) - pr % 3)) (j + ((pc : Nat) - pc % 3)) = num := by
        rw [← used_in_box_iff]
        simp [h3]
      have h1' : (pr : Nat) / 3 = (qr : Nat) / 3 := h.1
      have h2' : (pc : Nat) / 3 = (qc : Nat) / 3 := h.2
      apply H3
      refine ⟨(qr : Nat) % 3, by omega, (qc : Nat) % 3, by omega, ?_⟩
      have e1 : (qr : Nat) % 3 + ((pr : Nat) - (pr : Nat) % 3) = (qr : Nat) := by
        omega
      have e2 : (qc : Nat) % 3 + ((pc : Nat) - (pc : Nat) % 3) = (qc : Nat) := by
        omega
      rw [e1, e2]
      exact hval
  · intro H
    refine ⟨⟨?_, ?_⟩, ?_⟩
    · rw [← Bool.not_eq_true, used_in_row_iff hg hpr]
      rintro ⟨c, hc⟩
      exact H (pr, c) (Or.inl rfl) hc
    · rw [← Bool.not_eq_true, used_in_col_iff hg hpc]
      rintro ⟨r, hrr⟩
      exact H (r, pc) (Or.inr (Or.inl rfl)) hrr
    · rw [← Bool.not_eq_true, used_in_box_iff]
      rintro ⟨i, hi, j, hj, hcell⟩
      have hib : i + ((pr : Nat) - (pr : Nat) % 3) < 9 := by omega
      have hjb : j + ((pc : Nat) - (pc : Nat) % 3) < 9 := by omega
      refine H (⟨i + ((pr : Nat) - (pr : Nat) % 3), hib⟩,
        ⟨j + ((pc : Nat) - (pc : Nat) % 3), hjb⟩) ?_ hcell
      right; right
      constructor <;> simp <;> omega

/-! ## The removal driver: one attempt -/

/-- Exhaustive description of one removal attempt: either the grid and the
counter are unchanged (pick hit an empty cell, or the removal was rejected
and the backup restored), or the pick hit a nonzero cell, the oracle
reported exactly one solution for the zeroed grid, and the cell stays
zeroed with the counter decremented. -/
lemma attempt_cases {g : Grid} (hg : wf9 g) (cells : Int) {pick : Nat × Nat}
    (h1 : pick.1 < 9) (h2 : pick.2 < 9) :
    attempt g cells pick = (g, cells) ∨
      (cellD g pick.1 pick.2 ≠ 0 ∧
        attempt g cells pick = (setCell g pick.1 pick.2 0, cells - 1) ∧
        solve_count 100 (setCell g pick.1 pick.2 0) 0 0 = 1) := by
  unfold attempt
  by_cases hz : cellD g pick.1 pick.2 ≠ 0
  · rw [if_pos hz]
    by_cases hcnt : solve_count 100 (setCell g pick.1 pick.2 0) 0 0 ≠ 1
    · left
      rw [if_pos hcnt, setCell_restore hg h1 h2]
    · right
      rw [if_neg hcnt]
      exact ⟨hz, rfl, by omega⟩
  · left
    rw [if_neg hz]

lemma attempt_wf9 {g : Grid} (hg : wf9 g) (cells : Int) {pick : Nat × Nat}
    (h1 : pick.1 < 9) (h2 : pick.2 < 9) : wf9 (attempt g cells pick).1 := by
  rcases attempt_cases hg cells h1 h2 with h | ⟨_, h, _⟩ <;> rw [h]
  · exact hg
  · exact wf9_setCell hg _ _ _

lemma countFilled_setCell_zero {g : Grid} (hg : wf9 g) {r c : Nat}
    (hr : r < 9) (hc : c < 9) (hnz : cellD g r c ≠ 0) :
    countFilled (setCell g r c 0) = countFilled g - 1 := by
  unfold countFilled
  have hmem : (⟨⟨r, hr⟩, ⟨c, hc⟩⟩ : Fin 9 × Fin 9) ∈
      (Finset.univ.filter fun p : Fin 9 × Fin 9 => cellD g p.1 p.2 ≠ 0) := by
    simp [hnz]
  rw [← Finset.card_erase_of_mem hmem]
  congr 1
  ext p
  simp only [Finset.mem_erase, Finset.mem_filter, Finset.mem_univ, true_and]
  rw [cellD_setCell hg hr hc 0 p.1 p.2]
  constructor
  · intro hp
    split at hp
    · exact absurd rfl hp
    · next hne =>
      refine ⟨?_, hp⟩
      intro he
      subst he
      exact hne ⟨rfl, rfl⟩
  · rintro ⟨hne, hp⟩
    split
    · next he =>
      exfalso
      apply hne
      have e1 : (p.1 : Nat) = r := he.1.symm
      have e2 : (p.2 : Nat) = c := he.2.symm
      apply Prod.ext <;> apply Fin.ext <;> simpa
    · exact hp

lemma countFilled_pos_of_nonzero {g : Grid} {r c : Nat} (hr : r < 9)
    (hc : c < 9) (hnz : cellD g r c ≠ 0) : 0 < countFilled g := by
  apply Finset.card_pos.mpr
  exact ⟨⟨⟨r, hr⟩, ⟨c, hc⟩⟩, by simp [hnz]⟩

lemma countFilled_complete {g : Grid} (hcomp : complete g) :
    countFilled g = 81 := by
  unfold countFilled
  have hfull : (Finset.univ.filter
      fun q : Fin 9 × Fin 9 => cellD g q.1 q.2 ≠ 0) = Finset.univ := by
    apply Finset.filter_true_of_mem
    intro q _
    exact hcomp q.1 q.2
  rw [hfull]
  simp

lemma countFilled_le_81 (g : Grid) : countFilled g ≤ 81 := by
  unfold countFilled
  calc (Finset.univ.filter
      fun q : Fin 9 × Fin 9 => cellD g q.1 q.2 ≠ 0).card
      ≤ (Finset.univ : Finset (Fin 9 × Fin 9)).card := Finset.card_filter_le _ _
    _ = 81 := by simp

/-- The attempt keeps `cells` equal to the number of filled cells. -/
lemma attempt_tracks {g : Grid} (hg : wf9 g) {cells : Int} {pick : Nat × Nat}
    (h1 : pick.1 < 9) (h2 : pick.2 < 9)
    (hinv : cells = (countFilled g : Int)) :
    (attempt g cells pick).2 = (countFilled (attempt g cells pick).1 : Int) := by
  rcases attempt_cases hg cells h1 h2 with h | ⟨hnz, h, _⟩ <;> rw [h]
  · exact hinv
  · simp only
    rw [countFilled_setCell_zero hg h1 h2 hnz, hinv]
    have := countFilled_pos_of_nonzero h1 h2 hnz
    omega

/-! ## The removal driver: passes and the outer loop -/

lemma runPass_preserves {picks : Nat → Nat × Nat}
    (hpicks : ∀ n, (picks n).1 < 9 ∧ (picks n).2 < 9)
    {P : Grid → Int → Prop}
    (hstep : ∀ g cells pick, pick.1 < 9 → pick.2 < 9 → P g cells →
      P (attempt g cells pick).1 (attempt g cells pick).2) :
    ∀ n idx g cells, P g cells →
      P (runPass n picks idx g cells).1 (runPass n picks idx g cells).2 := by
  intro n
  induction n with
  | zero => intro idx g cells h; exact h
  | succ n ih =>
    intro idx g cells h
    unfold runPass
    exact ih _ _ _ (hstep _ _ _ (hpicks idx).1 (hpicks idx).2 h)

/-- If the outer loop returns a grid, some invariant-respecting counter
value `cells'` accompanies it and the exit condition forces
`cells' ≤ difficulty`. -/
lemma removeLoop_some {picks : Nat → Nat × Nat}
    (hpicks : ∀ n, (picks n).1 < 9 ∧ (picks n).2 < 9)
    {P : Grid → Int → Prop}
    (hstep : ∀ g cells pick, pick.1 < 9 → pick.2 < 9 → P g cells →
      P (attempt g cells pick).1 (attempt g cells pick).2) :
    ∀ fuel idx g cells old d out, P g cells →
      removeLoop fuel picks idx g cells old d = some out →
      ∃ cells' : Int, P out cells' ∧ cells' ≤ d := by
  intro fuel
  induction fuel with
  | zero =>
    intro idx g cells old d out _ hrun
    exact absurd hrun (by simp [removeLoop])
  | succ fuel ih =>
    intro idx g cells old d out h hrun
    unfold removeLoop at hrun
    split at hrun
    · exact ih _ _ _ _ _ _ (runPass_preserves hpicks hstep 100 idx g cells h)
        hrun
    · next hcond =>
      obtain rfl : g = out := Option.some.inj hrun
      refine ⟨cells, h, ?_⟩
      omega

/-! ## Unfolding lemmas for the counting solver -/

lemma solve_count_terminal (fuel : Nat) (g : Grid) :
    solve_count (fuel + 1) g 8 9 = 1 := by
  conv_lhs => unfold solve_count
  simp

lemma solve_count_unfold (fuel : Nat) (g : Grid) (row col r c : Nat)
    (hterm : ¬(row = 8 ∧ col = 9))
    (hr : (if col = 9 then row + 1 else row) = r)
    (hc : (if col = 9 then 0 else col) = c) :
    solve_count (fuel + 1) g row col =
      if cellD g r c = 0 then
        digits.foldl
          (fun acc num =>
            if is_safe g r c num then
              acc + solve_count fuel (setCell g r c num) r (c + 1)
            else acc)
          0
      else solve_count fuel g r (c + 1) := by
  subst hr
  subst hc
  conv_lhs => unfold solve_count
  rw [if_neg hterm]

/-- On a grid with no empty cell the solver walks the 81 cells and counts
exactly one solution, for any sufficient fuel and any cursor position. -/
lemma solve_count_complete {g : Grid} (hcomp : complete g) :
    ∀ fuel row col, row ≤ 8 → col ≤ 9 → 82 ≤ fuel + 9 * row + col →
      solve_count fuel g row col = 1 := by
  intro fuel
  induction fuel with
  | zero => intro row col h8 h9 hf; omega
  | succ fuel ih =>
    intro row col h8 h9 hf
    by_cases hterm : row = 8 ∧ col = 9
    · obtain ⟨rfl, rfl⟩ := hterm
      exact solve_count_terminal fuel g
    · rcases (by omega : col = 9 ∨ col ≤ 8) with rfl | hcol
      · have hrow : row < 8 := by
          rcases Nat.lt_or_ge row 8 with h | h
          · exact h
          · exact absurd ⟨by omega, rfl⟩ hterm
        have hcell : cellD g (row + 1) 0 ≠ 0 :=
          hcomp ⟨row + 1, by omega⟩ ⟨0, by omega⟩
        rw [solve_count_unfold fuel g row 9 (row + 1) 0 hterm (by simp)
          (by simp), if_neg hcell]
        exact ih (row + 1) 1 (by omega) (by omega) (by omega)
      · have hcell : cellD g row col ≠ 0 :=
          hcomp ⟨row, by omega⟩ ⟨col, by omega⟩
        have hc9 : ¬(col = 9) := by omega
        rw [solve_count_unfold fuel g row col row col hterm (by simp [hc9])
          (by simp [hc9]), if_neg hcell]
        exact ih row (col + 1) (by omega) (by omega) (by omega)

/-! ## Divergence of the removal loop on a stuck state -/

lemma attempt_noop_gridA1 (x : Int) : attempt gridA1 x (0, 0) = (gridA1, x) := by
  unfold attempt
  rw [if_neg (by decide)]

lemma runPass_noop_gridA1 :
    ∀ n idx x, runPass n constPick idx gridA1 x = (gridA1, x) := by
  intro n
  induction n with
  | zero => intro idx x; rfl
  | succ n ih =>
    intro idx x
    unfold runPass constPick
    rw [attempt_noop_gridA1]
    exact ih (idx + 1) x

lemma removeLoop_stuck :
    ∀ fuel idx, removeLoop fuel constPick idx gridA1 80 80 40 = none := by
  intro fuel
  induction fuel with
  | zero => intro idx; rfl
  | succ fuel ih =>
    intro idx
    unfold removeLoop
    rw [if_pos (Or.inr (by decide : (40 : Int) < 80)), runPass_noop_gridA1]
    exact ih (idx + 100)

/-! ## The checked embedding agrees with the total one on 9 x 9 grids -/

lemma cellC_eq {g : Grid} (hg : wf9 g) {r c : Nat} (hr : r < 9) (hc : c < 9) :
    cellC g r c = some (cellD g r c) := by
  have hrl : r < g.length := by rw [hg.1]; exact hr
  have hcl : c < (g.getD r []).length := by rw [length_row hg hr]; exact hc
  unfold cellC cellD
  rw [List.getElem?_eq_getElem hrl, Option.some_bind,
    ← getD_eq_getElem_of_lt hrl ([] : List Int),
    List.getElem?_eq_getElem hcl, getD_eq_getElem_of_lt hcl]

lemma used_in_rowC_eq {g : Grid} (hg : wf9 g) {row : Nat} (hr : row < 9)
    (num : Int) : used_in_rowC g row num = some (used_in_row g row num) := by
  have hrl : row < g.length := by rw [hg.1]; exact hr
  unfold used_in_rowC used_in_row
  rw [List.getElem?_eq_getElem hrl, getD_eq_getElem_of_lt hrl]
  rfl

lemma used_in_colC_eq :
    ∀ (l : List (List Int)) (c : Nat) (num : Int),
      (∀ row ∈ l, row.length = 9) → c < 9 →
      used_in_colC l c num = some (l.any fun row => row.getD c 0 == num) := by
  intro l
  induction l with
  | nil => intro c num _ _; rfl
  | cons row rest ih =>
    intro c num hrows hc
    have hcl : c < row.length := by
      rw [hrows row (List.mem_cons_self _ _)]; exact hc
    unfold used_in_colC
    rw [List.getElem?_eq_getElem hcl, Option.some_bind, List.any_cons,
      ← getD_eq_getElem_of_lt hcl 0]
    by_cases hbeq : (row.getD c 0 == num) = true
    · rw [if_pos hbeq, hbeq]
      rfl
    · have hf : (row.getD c 0 == num) = false := by
        simpa using hbeq
      rw [if_neg hbeq, hf, Bool.false_or]
      exact ih c num (fun r hr => hrows r (List.mem_cons_of_mem _ hr)) hc

lemma scanCellsC_eq {g : Grid} (hg : wf9 g) (num : Int) :
    ∀ l : List (Nat × Nat), (∀ p ∈ l, p.1 < 9 ∧ p.2 < 9) →
      scanCellsC g num l = some (l.any fun p => cellD g p.1 p.2 == num) := by
  intro l
  induction l with
  | nil => intro _; rfl
  | cons p rest ih =>
    intro hb
    obtain ⟨h1, h2⟩ := hb p (List.mem_cons_self _ _)
    unfold scanCellsC
    rw [cellC_eq hg h1 h2, Option.some_bind, List.any_cons]
    by_cases hbeq : (cellD g p.1 p.2 == num) = true
    · rw [if_pos hbeq, hbeq]
      rfl
    · have hf : (cellD g p.1 p.2 == num) = false := by
        simpa using hbeq
      rw [if_neg hbeq, hf, Bool.false_or]
      exact ih (fun q hq => hb q (List.mem_cons_of_mem _ hq))

lemma used_in_boxC_eq {g : Grid} (hg : wf9 g) {r0 c0 : Nat} (hr : r0 ≤ 6)
    (hc : c0 ≤ 6) (num : Int) :
    used_in_boxC g r0 c0 num = some (used_in_box g r0 c0 num) := by
  unfold used_in_boxC
  rw [scanCellsC_eq hg num _ ?bounds]
  case bounds =>
    intro p hp
    simp only [boxOffsets, List.map_cons, List.map_nil, List.mem_cons,
      List.not_mem_nil, or_false] at hp
    rcases hp with rfl | rfl | rfl | rfl | rfl | rfl | rfl | rfl | rfl <;>
      exact ⟨by simp; omega, by simp; omega⟩
  · congr 1
    unfold used_in_box
    rw [show List.range 3 = [0, 1, 2] from by rfl]
    simp only [boxOffsets, List.map_cons, List.map_nil, List.any_cons,
      List.any_nil, Bool.or_assoc, Bool.or_false]

lemma is_safeC_eq {g : Grid} (hg : wf9 g) {row col : Nat} (hr : row < 9)
    (hc : col < 9) (num : Int) :
    is_safeC g row col num = some (is_safe g row col num) := by
  unfold is_safeC is_safe
  rw [used_in_rowC_eq hg hr, Option.some_bind]
  by_cases h1 : used_in_row g row num = true
  · rw [if_pos h1, h1]
    rfl
  · have h1f : used_in_row g row num = false := by simpa using h1
    rw [if_neg h1, used_in_colC_eq g col num hg.2 hc, Option.some_bind,
      show (g.any fun row => row.getD col 0 == num) = used_in_col g col num
        from rfl]
    by_cases h2 : used_in_col g col num = true
    · rw [if_pos h2, h1f, h2]
      rfl
    · have h2f : used_in_col g col num = false := by simpa using h2
      rw [if_neg h2,
        used_in_boxC_eq hg (by omega : row - row % 3 ≤ 6)
          (by omega : col - col % 3 ≤ 6) num, h1f, h2f]
      rfl

lemma solve_countC_terminal (fuel : Nat) (g : Grid) :
    solve_countC (fuel + 1) g 8 9 = some 1 := by
  conv_lhs => unfold solve_countC
  simp

lemma solve_countC_unfold (fuel : Nat) (g : Grid) (row col r c : Nat)
    (hterm : ¬(row = 8 ∧ col = 9))
    (hr : (if col = 9 then row + 1 else row) = r)
    (hc : (if col = 9 then 0 else col) = c) :
    solve_countC (fuel + 1) g row col =
      (cellC g r c).bind fun v =>
        if v = 0 then
          digits.foldl
            (fun acc num => acc.bind fun a =>
              (is_safeC g r c num).bind fun s =>
                if s then
                  (solve_countC fuel (setCell g r c num) r (c + 1)).map (a + ·)
                else some a)
            (some 0)
        else solve_countC fuel g r (c + 1) := by
  subst hr
  subst hc
  conv_lhs => unfold solve_countC
  rw [if_neg hterm]

lemma foldl_optC_eq {g : Grid} (hg : wf9 g) (fuel : Nat) {r c : Nat}
    (hr : r < 9) (hc : c < 9)
    (ihrec : ∀ g', wf9 g' →
      solve_countC fuel g' r (c + 1) = some (solve_count fuel g' r (c + 1))) :
    ∀ (l : List Int) (a : Nat),
      l.foldl
        (fun acc num => acc.bind fun a' =>
          (is_safeC g r c num).bind fun s =>
            if s then
              (solve_countC fuel (setCell g r c num) r (c + 1)).map (a' + ·)
            else some a')
        (some a) =
      some (l.foldl
        (fun acc num =>
          if is_safe g r c num then
            acc + solve_count fuel (setCell g r c num) r (c + 1)
          else acc)
        a) := by
  intro l
  induction l with
  | nil => intro a; rfl
  | cons num rest ih =>
    intro a
    rw [List.foldl_cons, List.foldl_cons, Option.some_bind,
      is_safeC_eq hg hr hc num, Option.some_bind]
    by_cases hs : is_safe g r c num = true
    · rw [if_pos hs, if_pos hs, ihrec _ (wf9_setCell hg _ _ _)]
      exact ih _
    · rw [if_neg hs, if_neg hs]
      exact ih a

/-- The checked solver never hits an out-of-bounds access on a 9 x 9 grid
and computes exactly what the total embedding computes. -/
lemma solve_countC_eq :
    ∀ (fuel : Nat) (g : Grid), wf9 g → ∀ row col, row ≤ 8 → col ≤ 9 →
      solve_countC fuel g row col = some (solve_count fuel g row col) := by
  intro fuel
  induction fuel with
  | zero => intro g hg row col h8 h9; rfl
  | succ fuel ih =>
    intro g hg row col h8 h9
    by_cases hterm : row = 8 ∧ col = 9
    · obtain ⟨rfl, rfl⟩ := hterm
      rw [solve_count_terminal, solve_countC_terminal]
    · rcases (by omega : col = 9 ∨ col ≤ 8) with rfl | hcol
      · have hrow : row < 8 := by
          rcases Nat.lt_or_ge row 8 with h | h
          · exact h
          · exact absurd ⟨by omega, rfl⟩ hterm
        rw [solve_countC_unfold fuel g row 9 (row + 1) 0 hterm (by simp)
            (by simp),
          solve_count_unfold fuel g row 9 (row + 1) 0 hterm (by simp)
            (by simp),
          cellC_eq hg (by omega) (by omega), Option.some_bind]
        by_cases hz : cellD g (row + 1) 0 = 0
        · rw [if_pos hz, if_pos hz]
          exact foldl_optC_eq hg fuel (by omega) (by omega)
            (fun g' hg' => ih g' hg' (row + 1) 1 (by omega) (by omega))
            digits 0
        · rw [if_neg hz, if_neg hz]
          exact ih g hg (row + 1) 1 (by omega) (by omega)
      · have hc9 : ¬(col = 9) := by omega
        rw [solve_countC_unfold fuel g row col row col hterm (by simp [hc9])
            (by simp [hc9]),
          solve_count_unfold fuel g row col row col hterm (by simp [hc9])
            (by simp [hc9]),
          cellC_eq hg (by omega) (by omega), Option.some_bind]
        by_cases hz : cellD g row col = 0
        · rw [if_pos hz, if_pos hz]
          exact foldl_optC_eq hg fuel (by omega) (by omega)
            (fun g' hg' => ih g' hg' row (col + 1) (by omega) (by omega))
            digits 0
        · rw [if_neg hz, if_neg hz]
          exact ih g hg row (col + 1) (by omega) (by omega)

/-- C10: for every 9 x 9 grid, every call in the recursion tree of
`solve_count` from `(0, 0)` keeps `row ≤ 8` and `col ≤ 9`, and after the
terminal check and cursor normalisation every index access performed by
`solve_count`, `is_safe`, `used_in_row`, `used_in_col` and `used_in_box`
is in bounds: the checked embedding (which returns `none` exactly when a
Rust index access would panic) returns `some` and agrees with the total
embedding, for every fuel. -/
theorem c10_solve_count_no_panic (g : Grid) (hg : wf9 g) (fuel : Nat) :
    solve_countC fuel g 0 0 = some (solve_count fuel g 0 0) :=
  solve_countC_eq fuel g hg 0 0 (by omega) (by omega)

/-- Witness for C10 at a concrete grid. -/
theorem c10_witness :
    wf9 gridA ∧ solve_countC 100 gridA 0 0 = some (solve_count 100 gridA 0 0) :=
  ⟨by decide, c10_solve_count_no_panic gridA (by decide) 100⟩

/-! ## Counting completions: the terminal case -/

lemma digitFin_val {v : Int} (h1 : 1 ≤ v) (h9 : v ≤ 9) :
    ((digitFin v : Nat) : Int) + 1 = v := by
  unfold digitFin
  simp only [Fin.val_mk]
  omega

lemma digitFin_coe (d : Fin 9) : digitFin ((d : Int) + 1) = d := by
  have hd := d.isLt
  apply Fin.ext
  unfold digitFin
  simp only [Fin.val_mk]
  omega

lemma sameUnit_symm {p q : Fin 9 × Fin 9} (h : sameUnit p q) : sameUnit q p := by
  rcases h with h | h | h
  · exact Or.inl h.symm
  · exact Or.inr (Or.inl h.symm)
  · exact Or.inr (Or.inr ⟨h.1.symm, h.2.symm⟩)

lemma entries09_setCell {g : Grid} (hg : wf9 g) (he : entries09 g)
    {r c : Nat} (hr : r < 9) (hc : c < 9) {v : Int} (h0 : 0 ≤ v)
    (h9 : v ≤ 9) : entries09 (setCell g r c v) := by
  intro i j
  rw [cellD_setCell hg hr hc v i j]
  split
  · exact ⟨h0, h9⟩
  · exact he i j

lemma conflictFree_setCell {g : Grid} (hg : wf9 g) (hcf : conflictFree g)
    {r c : Nat} (hr : r < 9) (hc : c < 9) (hz : cellD g r c = 0) {num : Int}
    (hsafe : is_safe g r c num = true) (hnum : num ≠ 0) :
    conflictFree (setCell g r c num) := by
  have hs := (is_safe_iff hg (⟨r, hr⟩, ⟨c, hc⟩) num).mp hsafe
  intro p q hne hsame hnz
  rw [cellD_setCell hg hr hc num p.1 p.2] at hnz ⊢
  rw [cellD_setCell hg hr hc num q.1 q.2]
  by_cases hp : r = (p.1 : Nat) ∧ c = (p.2 : Nat)
  · have hpp : p = (⟨r, hr⟩, ⟨c, hc⟩) := by
      apply Prod.ext <;> apply Fin.ext <;> simp [hp.1.symm, hp.2.symm]
    rw [if_pos hp] at hnz ⊢
    by_cases hq : r = (q.1 : Nat) ∧ c = (q.2 : Nat)
    · exfalso
      apply hne
      rw [hpp]
      apply Prod.ext <;> apply Fin.ext <;> simp [hq.1.symm, hq.2.symm]
    · rw [if_neg hq]
      intro heq
      exact hs q (hpp ▸ hsame) heq.symm
  · rw [if_neg hp] at hnz ⊢
    by_cases hq : r = (q.1 : Nat) ∧ c = (q.2 : Nat)
    · have hqq : q = (⟨r, hr⟩, ⟨c, hc⟩) := by
        apply Prod.ext <;> apply Fin.ext <;> simp [hq.1.symm, hq.2.symm]
      rw [if_pos hq]
      intro heq
      exact hs p (sameUnit_symm (hqq ▸ hsame)) heq
    · rw [if_neg hq]
      exact hcf p q hne hsame hnz

lemma solExtends_setCell_iff {g : Grid} (hg : wf9 g) {r c : Nat} (hr : r < 9)
    (hc : c < 9) (hz : cellD g r c = 0) (d : Fin 9) (f : Sol) :
    solExtends (setCell g r c ((d : Int) + 1)) f ↔
      (solExtends g f ∧ f ⟨r, hr⟩ ⟨c, hc⟩ = d) := by
  have hd9 := d.isLt
  constructor
  · intro h
    constructor
    · intro i j hnz
      have hij := h i j
      rw [cellD_setCell hg hr hc _ i j] at hij
      by_cases hcase : r = (i : Nat) ∧ c = (j : Nat)
      · exfalso
        apply hnz
        have : i = (⟨r, hr⟩ : Fin 9) := Fin.ext (by simp [hcase.1.symm])
        have hj : j = (⟨c, hc⟩ : Fin 9) := Fin.ext (by simp [hcase.2.symm])
        rw [this, hj]
        exact hz
      · rw [if_neg hcase] at hij
        exact hij hnz
    · have hset := h ⟨r, hr⟩ ⟨c, hc⟩
      rw [cellD_setCell hg hr hc _ r c, if_pos ⟨rfl, rfl⟩] at hset
      have := hset (by omega)
      apply Fin.ext
      have hcast : ((f ⟨r, hr⟩ ⟨c, hc⟩ : Nat) : Int) = ((d : Nat) : Int) := by
        omega
      exact_mod_cast hcast
  · rintro ⟨hext, hfd⟩
    intro i j hnz
    rw [cellD_setCell hg hr hc _ i j] at hnz ⊢
    by_cases hcase : r = (i : Nat) ∧ c = (j : Nat)
    · rw [if_pos hcase]
      have hi : i = (⟨r, hr⟩ : Fin 9) := Fin.ext (by simp [hcase.1.symm])
      have hj : j = (⟨c, hc⟩ : Fin 9) := Fin.ext (by simp [hcase.2.symm])
      rw [hi, hj, hfd]
    · rw [if_neg hcase] at hnz ⊢
      exact hext i j hnz

lemma no_completion_of_blocked {g : Grid} (hg : wf9 g) {r c : Nat} (hr : r < 9)
    (hc : c < 9) (hz : cellD g r c = 0) (d : Fin 9)
    (hblocked : ¬(is_safe g r c ((d : Int) + 1) = true)) (f : Sol)
    (hvalid : validSol f) (hext : solExtends g f) :
    f ⟨r, hr⟩ ⟨c, hc⟩ ≠ d := by
  have hd9 := d.isLt
  intro hfd
  have hiff := is_safe_iff hg (⟨r, hr⟩, ⟨c, hc⟩) ((d : Int) + 1)
  rw [hiff] at hblocked
  push_neg at hblocked
  obtain ⟨q, hsame, hcell⟩ := hblocked
  have hq0 : cellD g q.1 q.2 ≠ 0 := by rw [hcell]; omega
  have hqne : q ≠ (⟨r, hr⟩, ⟨c, hc⟩) := by
    intro hq
    rw [hq] at hcell
    have : cellD g r c = (d : Int) + 1 := hcell
    omega
  have hfq := hext q.1 q.2 hq0
  rw [hcell] at hfq
  apply hvalid (⟨r, hr⟩, ⟨c, hc⟩) q (Ne.symm hqne) hsame
  have hcast : ((f ⟨r, hr⟩ ⟨c, hc⟩ : Nat) : Int) = ((f q.1 q.2 : Nat) : Int) := by
    rw [show ((f ⟨r, hr⟩ ⟨c, hc⟩ : Nat) : Int) = (d : Int) from by
      rw [hfd]]
    omega
  exact Fin.ext (by exact_mod_cast hcast)

lemma findZeroIn_some : ∀ {row : List Int} {j : Nat},
    findZeroIn row = some j → j < row.length ∧ row.getD j 0 = 0 := by
  intro row
  induction row with
  | nil => intro j h; exact absurd h (by simp [findZeroIn])
  | cons x xs ih =>
    intro j h
    unfold findZeroIn at h
    by_cases hx : x = 0
    · rw [if_pos hx] at h
      obtain rfl : j = 0 := (Option.some.inj h).symm
      exact ⟨Nat.succ_pos _, hx⟩
    · rw [if_neg hx] at h
      cases hz : findZeroIn xs with
      | none => rw [hz] at h; exact absurd h (by simp)
      | some j' =>
        rw [hz] at h
        obtain rfl : j = j' + 1 := (Option.some.inj (by simpa using h)).symm
        obtain ⟨h1, h2⟩ := ih hz
        exact ⟨by simpa using h1, h2⟩

lemma findZeroIn_none : ∀ {row : List Int}, findZeroIn row = none →
    ∀ j < row.length, row.getD j 0 ≠ 0 := by
  intro row
  induction row with
  | nil => intro _ j hj; simp at hj
  | cons x xs ih =>
    intro h j hj
    unfold findZeroIn at h
    by_cases hx : x = 0
    · rw [if_pos hx] at h
      exact absurd h (by simp)
    · rw [if_neg hx] at h
      cases j with
      | zero => exact hx
      | succ j' =>
        apply ih (by simpa using h)
        simpa using hj

lemma findEmptyFrom_some_spec : ∀ (l : List (List Int)) (i r c : Nat),
    findEmptyFrom l i = some (r, c) →
    i ≤ r ∧ r - i < l.length ∧ findZeroIn (l.getD (r - i) []) = some c := by
  intro l
  induction l with
  | nil => intro i r c h; exact absurd h (by simp [findEmptyFrom])
  | cons row rest ih =>
    intro i r c h
    unfold findEmptyFrom at h
    cases hz : findZeroIn row with
    | some j =>
      rw [hz] at h
      obtain ⟨rfl, rfl⟩ : i = r ∧ j = c := by
        have := Option.some.inj h
        exact ⟨congrArg Prod.fst this, congrArg Prod.snd this⟩
      refine ⟨Nat.le_refl _, by simp, ?_⟩
      rw [Nat.sub_self]
      exact hz
    | none =>
      rw [hz] at h
      obtain ⟨h1, h2, h3⟩ := ih (i + 1) r c h
      refine ⟨by omega, by simp; omega, ?_⟩
      have hsub : r - i = (r - (i + 1)) + 1 := by omega
      rw [hsub, List.getD_cons_succ]
      exact h3

lemma find_empty_location_some {g : Grid} (hg : wf9 g) {r c : Nat}
    (h : find_empty_location g = some (r, c)) :
    r < 9 ∧ c < 9 ∧ cellD g r c = 0 := by
  obtain ⟨h1, h2, h3⟩ := findEmptyFrom_some_spec g 0 r c h
  rw [Nat.sub_zero] at h2 h3
  have hr : r < 9 := by rw [← hg.1]; exact h2
  obtain ⟨hj, hcell⟩ := findZeroIn_some h3
  have hc : c < 9 := by rw [← length_row hg hr]; exact hj
  exact ⟨hr, hc, hcell⟩

lemma findEmptyFrom_none_spec : ∀ (l : List (List Int)) (i : Nat),
    findEmptyFrom l i = none → ∀ row ∈ l, findZeroIn row = none := by
  intro l
  induction l with
  | nil => intro i _ row hrow; cases hrow
  | cons x xs ih =>
    intro i h row hrow
    unfold findEmptyFrom at h
    cases hz : findZeroIn x with
    | some j => rw [hz] at h; exact absurd h (by simp)
    | none =>
      rw [hz] at h
      rcases List.mem_cons.mp hrow with rfl | hrow'
      · exact hz
      · exact ih (i + 1) h row hrow'

lemma find_empty_location_none {g : Grid} (hg : wf9 g)
    (h : find_empty_location g = none) : complete g := by
  intro i j
  have hrl : (i : Nat) < g.length := by rw [hg.1]; exact i.isLt
  have hrow : g.getD (i : Nat) [] ∈ g := by
    rw [getD_eq_getElem_of_lt hrl]
    exact List.getElem_mem hrl
  have hnone := findEmptyFrom_none_spec g 0 h _ hrow
  have := findZeroIn_none hnone (j : Nat)
    (by rw [length_row hg i.isLt]; exact j.isLt)
  exact this

lemma countZeros_setCell {g : Grid} (hg : wf9 g) {r c : Nat} (hr : r < 9)
    (hc : c < 9) (hz : cellD g r c = 0) {v : Int} (hv : v ≠ 0) :
    countZeros (setCell g r c v) < countZeros g := by
  unfold countZeros
  apply Finset.card_lt_card
  constructor
  · intro p hp
    simp only [Finset.mem_filter, Finset.mem_univ, true_and] at hp ⊢
    rw [cellD_setCell hg hr hc v p.1 p.2] at hp
    split at hp
    · exact absurd hp hv
    · exact hp
  · intro hsub
    have hmem : (⟨⟨r, hr⟩, ⟨c, hc⟩⟩ : Fin 9 × Fin 9) ∈
        Finset.univ.filter fun p : Fin 9 × Fin 9 => cellD g p.1 p.2 = 0 := by
      simp only [Finset.mem_filter, Finset.mem_univ, true_and]
      exact hz
    have := hsub hmem
    simp only [Finset.mem_filter, Finset.mem_univ, true_and] at this
    rw [cellD_setCell hg hr hc v r c, if_pos ⟨rfl, rfl⟩] at this
    exact hv this

lemma findSome?_eq_some_spec {α β : Type} {l : List α} {k : α → Option β}
    {b : β} (h : l.findSome? k = some b) : ∃ a ∈ l, k a = some b := by
  induction l with
  | nil => exact absurd h (by simp)
  | cons x xs ih =>
    rw [List.findSome?_cons] at h
    cases hx : k x with
    | some b' =>
      rw [hx] at h
      exact ⟨x, List.mem_cons_self _ _, hx.trans h⟩
    | none =>
      rw [hx] at h
      obtain ⟨a, ha, hk⟩ := ih h
      exact ⟨a, List.mem_cons_of_mem _ ha, hk⟩

lemma findSome?_isSome_of_mem {α β : Type} {l : List α} {k : α → Option β}
    {a : α} {b : β} (ha : a ∈ l) (hk : k a = some b) :
    ∃ b', l.findSome? k = some b' := by
  induction l with
  | nil => cases ha
  | cons x xs ih =>
    rw [List.findSome?_cons]
    cases hx : k x with
    | some b' => exact ⟨b', rfl⟩
    | none =>
      rcases List.mem_cons.mp ha with rfl | ha'
      · rw [hx] at hk
        cases hk
      · exact ih ha'

lemma getD_replicate_self {α : Type} {n j : Nat} {a : α} (d : α) :
    (List.replicate n a).getD j d = if j < n then a else d := by
  rw [List.getD_eq_getElem?_getD, List.getElem?_replicate]
  split <;> rfl

lemma cellD_zeroGrid (i j : Nat) : cellD zeroGrid i j = 0 := by
  unfold cellD zeroGrid
  rw [getD_replicate_self]
  split
  · rw [getD_replicate_self]
    split <;> rfl
  · rfl

/-! ## The randomized filler: soundness and success -/

/-- Any grid returned by the filler is complete and keeps the invariants:
9 x 9, entries in range, no constraint conflicts. -/
lemma fill_recursive_sound :
    ∀ (fuel : Nat) (g : Grid) (nums : List Int) (h : Grid),
      wf9 g → entries09 g → conflictFree g →
      (∀ num ∈ nums, 1 ≤ num ∧ num ≤ 9) →
      fill_recursive fuel g nums = some h →
      wf9 h ∧ entries09 h ∧ conflictFree h ∧ complete h := by
  intro fuel
  induction fuel with
  | zero =>
    intro g nums h _ _ _ _ hrun
    exact absurd hrun (by simp [fill_recursive])
  | succ fuel ih =>
    intro g nums h hg he hcf hnums hrun
    unfold fill_recursive at hrun
    cases hfe : find_empty_location g with
    | none =>
      rw [hfe] at hrun
      obtain rfl : g = h := Option.some.inj hrun
      exact ⟨hg, he, hcf, find_empty_location_none hg hfe⟩
    | some rc =>
      obtain ⟨r, c⟩ := rc
      rw [hfe] at hrun
      obtain ⟨num, hmem, hnum⟩ := findSome?_eq_some_spec hrun
      by_cases hsafe : is_safe g r c num = true
      · rw [if_pos hsafe] at hnum
        obtain ⟨hr, hc, hz⟩ := find_empty_location_some hg hfe
        obtain ⟨hb1, hb9⟩ := hnums num hmem
        exact ih (setCell g r c num) nums h (wf9_setCell hg _ _ _)
          (entries09_setCell hg he hr hc (by omega) (by omega))
          (conflictFree_setCell hg hcf hr hc hz hsafe (by omega)) hnums hnum
      · rw [if_neg hsafe] at hnum
        cases hnum

/-- If some complete rule-valid assignment extends the grid and the digit
pool contains all digits, the filler succeeds given fuel exceeding the
number of empty cells. -/
lemma fill_recursive_total :
    ∀ (fuel : Nat) (g : Grid) (nums : List Int),
      wf9 g → (∀ d : Int, 1 ≤ d → d ≤ 9 → d ∈ nums) →
      (∃ f : Sol, validSol f ∧ solExtends g f) →
      countZeros g < fuel →
      ∃ h, fill_recursive fuel g nums = some h := by
  intro fuel
  induction fuel with
  | zero => intro g nums _ _ _ hfuel; omega
  | succ fuel ih =>
    intro g nums hg hnums hex hfuel
    obtain ⟨f, hvalid, hext⟩ := hex
    unfold fill_recursive
    cases hfe : find_empty_location g with
    | none => exact ⟨g, rfl⟩
    | some rc =>
      obtain ⟨r, c⟩ := rc
      obtain ⟨hr, hc, hz⟩ := find_empty_location_some hg hfe
      have hd9 := (f ⟨r, hr⟩ ⟨c, hc⟩).isLt
      have hnum9 : (1 : Int) ≤ ((f ⟨r, hr⟩ ⟨c, hc⟩ : Nat) : Int) + 1 ∧
          ((f ⟨r, hr⟩ ⟨c, hc⟩ : Nat) : Int) + 1 ≤ 9 := by
        constructor <;> [omega; exact_mod_cast by omega]
      have hmem : ((f ⟨r, hr⟩ ⟨c, hc⟩ : Nat) : Int) + 1 ∈ nums :=
        hnums _ hnum9.1 hnum9.2
      have hsafe : is_safe g r c (((f ⟨r, hr⟩ ⟨c, hc⟩ : Nat) : Int) + 1)
          = true := by
        by_cases hu : is_safe g r c (((f ⟨r, hr⟩ ⟨c, hc⟩ : Nat) : Int) + 1)
          = true
        · exact hu
        · exact absurd rfl
            (no_completion_of_blocked hg hr hc hz _ hu f hvalid hext)
      obtain ⟨h, hh⟩ := ih (setCell g r c (((f ⟨r, hr⟩ ⟨c, hc⟩ : Nat) : Int) + 1))
        nums (wf9_setCell hg _ _ _) hnums
        ⟨f, hvalid, (solExtends_setCell_iff hg hr hc hz _ f).mpr ⟨hext, rfl⟩⟩
        (by
          have hlt := countZeros_setCell hg hr hc hz
            (by omega : ((f ⟨r, hr⟩ ⟨c, hc⟩ : Nat) : Int) + 1 ≠ 0)
          omega)
      have hk : (fun num => if is_safe g r c num then
            fill_recursive fuel (setCell g r c num) nums else none)
            (((f ⟨r, hr⟩ ⟨c, hc⟩ : Nat) : Int) + 1) = some h := by
        simp only []
        rw [if_pos hsafe]
        exact hh
      exact findSome?_isSome_of_mem hmem hk

/-! ## Pigeonhole: pairwise-distinct digits occur exactly once -/

lemma exactlyOnce_of_pairwise (v : Fin 9 → Int)
    (hb : ∀ i, 1 ≤ v i ∧ v i ≤ 9) (hinj : ∀ i j, i ≠ j → v i ≠ v j)
    (d : Fin 9) :
    (Finset.univ.filter fun i => v i = (d : Int) + 1).card = 1 := by
  have hwinj : Function.Injective (fun i => digitFin (v i)) := by
    intro i j hij
    by_contra hne
    apply hinj i j hne
    have h1 := digitFin_val (hb i).1 (hb i).2
    have h2 := digitFin_val (hb j).1 (hb j).2
    simp only [] at hij
    rw [hij] at h1
    omega
  obtain ⟨i, hi⟩ := Finite.injective_iff_surjective.mp hwinj d
  simp only [] at hi
  rw [Finset.card_eq_one]
  refine ⟨i, ?_⟩
  ext j
  simp only [Finset.mem_filter, Finset.mem_univ, true_and,
    Finset.mem_singleton]
  constructor
  · intro hvj
    apply hwinj
    show digitFin (v j) = digitFin (v i)
    rw [hvj, hi, digitFin_coe]
  · rintro rfl
    have := digitFin_val (hb j).1 (hb j).2
    rw [hi] at this
    omega

/-- A complete, conflict-free grid with entries in range satisfies the
spec's validity phrasing: digits in `[1, 9]`, and each of 1..9 exactly
once in every row, column and box. -/
lemma valid_of_complete_conflictFree {h : Grid} (hg : wf9 h)
    (he : entries09 h) (hcf : conflictFree h) (hcomp : complete h) :
    (∀ i j : Fin 9, 1 ≤ cellD h i j ∧ cellD h i j ≤ 9) ∧
      rowOnce h ∧ colOnce h ∧ boxOnce h := by
  have hrange : ∀ i j : Fin 9, 1 ≤ cellD h i j ∧ cellD h i j ≤ 9 := by
    intro i j
    have h1 := (he i j).1
    have h2 := (he i j).2
    have h3 := hcomp i j
    omega
  refine ⟨hrange, ?_, ?_, ?_⟩
  · intro r d
    apply exactlyOnce_of_pairwise (fun c => cellD h r c)
    · intro c
      exact hrange r c
    · intro c1 c2 hne
      apply hcf (r, c1) (r, c2)
        (fun hp => hne (congrArg Prod.snd hp)) (Or.inl rfl)
      show cellD h (r : Nat) (c1 : Nat) ≠ 0
      have hx : 1 ≤ cellD h (r : Nat) (c1 : Nat) := (hrange r c1).1
      omega
  · intro c d
    apply exactlyOnce_of_pairwise (fun r => cellD h r c)
    · intro r
      exact hrange r c
    · intro r1 r2 hne
      apply hcf (r1, c) (r2, c)
        (fun hp => hne (congrArg Prod.fst hp)) (Or.inr (Or.inl rfl))
      show cellD h (r1 : Nat) (c : Nat) ≠ 0
      have hx : 1 ≤ cellD h (r1 : Nat) (c : Nat) := (hrange r1 c).1
      omega
  · intro b1 b2 d
    have hb1 := b1.isLt
    have hb2 := b2.isLt
    apply exactlyOnce_of_pairwise
      (fun t : Fin 9 => cellD h (3 * (b1 : Nat) + (t : Nat) / 3)
        (3 * (b2 : Nat) + (t : Nat) % 3))
    · intro t
      have ht := t.isLt
      exact hrange ⟨3 * (b1 : Nat) + (t : Nat) / 3, by omega⟩
        ⟨3 * (b2 : Nat) + (t : Nat) % 3, by omega⟩
    · intro t1 t2 hne
      have ht1 := t1.isLt
      have ht2 := t2.isLt
      apply hcf
        (⟨3 * (b1 : Nat) + (t1 : Nat) / 3, by omega⟩,
          ⟨3 * (b2 : Nat) + (t1 : Nat) % 3, by omega⟩)
        (⟨3 * (b1 : Nat) + (t2 : Nat) / 3, by omega⟩,
          ⟨3 * (b2 : Nat) + (t2 : Nat) % 3, by omega⟩)
      · intro hp
        apply hne
        have e1 : 3 * (b1 : Nat) + (t1 : Nat) / 3 =
            3 * (b1 : Nat) + (t2 : Nat) / 3 := by
          have := congrArg Prod.fst hp
          exact congrArg Fin.val this
        have e2 : 3 * (b2 : Nat) + (t1 : Nat) % 3 =
            3 * (b2 : Nat) + (t2 : Nat) % 3 := by
          have := congrArg Prod.snd hp
          exact congrArg Fin.val this
        apply Fin.ext
        omega
      · right
        right
        constructor <;> simp <;> omega
      · show cellD h (3 * (b1 : Nat) + (t1 : Nat) / 3)
          (3 * (b2 : Nat) + (t1 : Nat) % 3) ≠ 0
        have hx : 1 ≤ cellD h (3 * (b1 : Nat) + (t1 : Nat) / 3)
            (3 * (b2 : Nat) + (t1 : Nat) % 3) :=
          (hrange ⟨3 * (b1 : Nat) + (t1 : Nat) / 3, by omega⟩
            ⟨3 * (b2 : Nat) + (t1 : Nat) % 3, by omega⟩).1
        omega

/-- C6: for every permutation of `{1, ..., 9}` supplied as the candidate
order, `fill_recursive` started on the all-zero 9 x 9 grid succeeds
(returns `true` in the source, modelled as `some`), and the resulting grid
has every cell in `[1, 9]` with every row, column and aligned 3 x 3 box
containing each of 1..9 exactly once.  Fuel 82 exceeds the 81 empty
cells, matching the claim's termination argument. -/
theorem c6_fill_produces_valid_grid (nums : List Int)
    (hperm : nums.Perm digits) (fuel : Nat) (hfuel : 82 ≤ fuel) :
    ∃ h, fill_recursive fuel zeroGrid nums = some h ∧
      (∀ i j : Fin 9, 1 ≤ cellD h i j ∧ cellD h i j ≤ 9) ∧
      rowOnce h ∧ colOnce h ∧ boxOnce h := by
  have hmem9 : ∀ d : Int, 1 ≤ d → d ≤ 9 → d ∈ nums := by
    intro d h1 h9
    apply hperm.mem_iff.mpr
    unfold digits
    simp only [List.mem_cons, List.not_mem_nil, or_false]
    omega
  have hbounds : ∀ num ∈ nums, 1 ≤ num ∧ num ≤ 9 := by
    intro num hnum
    have hd : num ∈ digits := hperm.mem_iff.mp hnum
    unfold digits at hd
    simp only [List.mem_cons, List.not_mem_nil, or_false] at hd
    omega
  have hzg : wf9 zeroGrid := by decide
  have hez : entries09 zeroGrid := by
    intro i j
    rw [cellD_zeroGrid]
    omega
  have hcz : conflictFree zeroGrid := by
    intro p q _ _ hnz
    exact absurd (cellD_zeroGrid p.1 p.2) hnz
  have hcount : countZeros zeroGrid < fuel := by
    have : countZeros zeroGrid ≤ 81 := by
      unfold countZeros
      calc (Finset.univ.filter
          fun q : Fin 9 × Fin 9 => cellD zeroGrid q.1 q.2 = 0).card
          ≤ (Finset.univ : Finset (Fin 9 × Fin 9)).card :=
            Finset.card_filter_le _ _
        _ = 81 := by simp
    omega
  have hex : ∃ f : Sol, validSol f ∧ solExtends zeroGrid f := by
    refine ⟨canonSol, by decide, ?_⟩
    intro i j hnz
    exact absurd (cellD_zeroGrid i j) hnz
  obtain ⟨h, hh⟩ := fill_recursive_total fuel zeroGrid nums hzg hmem9 hex hcount
  obtain ⟨hwf, he, hcf, hcomp⟩ :=
    fill_recursive_sound fuel zeroGrid nums h hzg hez hcz hbounds hh
  obtain ⟨hrange, hrow, hcol, hbox⟩ :=
    valid_of_complete_conflictFree hwf he hcf hcomp
  exact ⟨h, hh, hrange, hrow, hcol, hbox⟩

/-- Witness for C6 with the identity permutation and fuel 82. -/
theorem c6_witness :
    List.Perm digits digits ∧
      ∃ h, fill_recursive 82 zeroGrid digits = some h ∧
        (∀ i j : Fin 9, 1 ≤ cellD h i j ∧ cellD h i j ≤ 9) ∧
        rowOnce h ∧ colOnce h ∧ boxOnce h :=
  ⟨List.Perm.refl _,
    c6_fill_produces_valid_grid digits (List.Perm.refl _) 82 (by omega)⟩

/-! ## Claim C1 (code bug: the loop need not terminate) -/

set_option maxRecDepth 100000 in
/-- C1: the claim says the outer loop of `remove_cells` exits as soon as a
full 100-attempt pass removes no cell, even while `cells > difficulty`.
The code disagrees: `old_cells` is assigned `cells` at the end of every
pass, so at every loop check `cells < old_cells` is false and the loop
condition degenerates to `cells > difficulty` — the loop only exits at or
below the target.  Concretely, from the full grid `gridA` with the pick
stream that removes `(0, 0)` and then picks `(0, 0)` forever, every pass
after the first removes nothing, `cells` stays at 80 > 40, and
`remove_cells` diverges: it returns `none` for every amount of fuel. -/
theorem c1_remove_cells_diverges :
    ∀ fuel, remove_cells fuel gridA 40 constPick = none := by
  intro fuel
  cases fuel with
  | zero => rfl
  | succ fuel =>
    unfold remove_cells removeLoop
    rw [if_pos (Or.inl (by decide : (81 : Int) < 82)),
      show runPass 100 constPick 0 gridA 81 = (gridA1, 80) from by rfl]
    exact removeLoop_stuck fuel (0 + 100)

/-! ## Claim C5 (corrected: "nowhere else" is really "nowhere") -/

/-- C5 counterexample: on the grid whose only entry is a 5 at `(0, 0)`,
the digit 5 appears nowhere else in the row, column or box of `(0, 0)`,
yet `is_safe` returns `false` — the checker also counts the digit standing
in the queried cell itself, so the claimed equivalence fails. -/
theorem c5_counterexample :
    ¬(is_safe gridC5 0 0 5 = true ↔ nowhereElse gridC5 (0, 0) 5) := by
  decide

/-- C5 (amended): for every 9 x 9 grid with entries in `[0, 9]`, row and
column in `[0, 8]` and digit in `[1, 9]`, `is_safe` returns true iff the
digit appears nowhere in the row, nowhere in the column and nowhere in the
box with origin `(row - row % 3, col - col % 3)` — including the queried
cell itself (for a cell currently empty this coincides with the claim's
"nowhere else"). -/
theorem c5_is_safe_characterisation (g : Grid) (hg : wf9 g) (row col : Nat)
    (hrow : row ≤ 8) (hcol : col ≤ 8) (d : Int) (hd1 : 1 ≤ d) (hd9 : d ≤ 9)
    (he : entries09 g) :
    is_safe g row col d = true ↔
      (∀ j, j ≤ 8 → cellD g row j ≠ d) ∧
      (∀ i, i ≤ 8 → cellD g i col ≠ d) ∧
      (∀ i j, i < 3 → j < 3 →
        cellD g (i + (row - row % 3)) (j + (col - col % 3)) ≠ d) := by
  unfold is_safe
  simp only [Bool.and_eq_true, Bool.not_eq_true']
  constructor
  · rintro ⟨⟨h1, h2⟩, h3⟩
    refine ⟨?_, ?_, ?_⟩
    · intro j hj hcell
      have hx : used_in_row g row d = true :=
        (used_in_row_iff hg (by omega) d).mpr ⟨⟨j, by omega⟩, hcell⟩
      rw [h1] at hx
      exact Bool.noConfusion hx
    · intro i hi hcell
      have hx : used_in_col g col d = true :=
        (used_in_col_iff hg (by omega) d).mpr ⟨⟨i, by omega⟩, hcell⟩
      rw [h2] at hx
      exact Bool.noConfusion hx
    · intro i j hi hj hcell
      have hx : used_in_box g (row - row % 3) (col - col % 3) d = true :=
        (used_in_box_iff g _ _ d).mpr ⟨i, hi, j, hj, hcell⟩
      rw [h3] at hx
      exact Bool.noConfusion hx
  · rintro ⟨H1, H2, H3⟩
    refine ⟨⟨?_, ?_⟩, ?_⟩
    · rw [← Bool.not_eq_true, used_in_row_iff hg (by omega)]
      rintro ⟨c, hc⟩
      exact H1 c (by omega) hc
    · rw [← Bool.not_eq_true, used_in_col_iff hg (by omega)]
      rintro ⟨r, hr⟩
      exact H2 r (by omega) hr
    · rw [← Bool.not_eq_true, used_in_box_iff]
      rintro ⟨i, hi, j, hj, hc⟩
      exact H3 i j hi hj hc

/-- Witness for the amended C5 at a concrete input. -/
theorem c5_witness :
    wf9 gridA ∧ entries09 gridA ∧
      (is_safe gridA 0 0 5 = true ↔
        (∀ j, j ≤ 8 → cellD gridA 0 j ≠ 5) ∧
        (∀ i, i ≤ 8 → cellD gridA i 0 ≠ 5) ∧
        (∀ i j, i < 3 → j < 3 →
          cellD gridA (i + (0 - 0 % 3)) (j + (0 - 0 % 3)) ≠ 5)) :=
  ⟨by decide, by decide,
    c5_is_safe_characterisation gridA (by decide) 0 0 (by decide) (by decide)
      5 (by decide) (by decide) (by decide)⟩

/-! ## Claim C8 (rejected removals restore the grid) -/

/-- C8: whenever the oracle reports a count different from 1 for the grid
with the picked (nonzero) cell zeroed, the attempt restores the backup and
returns the grid exactly as it was; the oracle itself only ever receives
the snapshot `setCell g pick.1 pick.2 0` and the original grid value is
reproduced (`attempt` is pure, mirroring that the Rust solver works on a
clone and never writes to the caller's grid). -/
theorem c8_rejected_restores (g : Grid) (cells : Int) (pick : Nat × Nat)
    (hg : wf9 g) (h1 : pick.1 < 9) (h2 : pick.2 < 9)
    (hnz : cellD g pick.1 pick.2 ≠ 0)
    (hcnt : solve_count 100 (setCell g pick.1 pick.2 0) 0 0 ≠ 1) :
    attempt g cells pick = (g, cells) := by
  unfold attempt
  rw [if_pos hnz, if_pos hcnt, setCell_restore hg h1 h2]

set_option maxRecDepth 100000 in
/-- Witness for C8: removing cell `(1, 6)` from `gridP5` leaves two
completions, so the attempt is rejected and the grid is returned intact. -/
theorem c8_witness :
    wf9 gridP5 ∧ cellD gridP5 1 6 ≠ 0 ∧
      solve_count 100 (setCell gridP5 1 6 0) 0 0 ≠ 1 ∧
      attempt gridP5 76 (1, 6) = (gridP5, 76) :=
  ⟨by decide, by decide, by decide,
    c8_rejected_restores gridP5 76 (1, 6) (by decide) (by decide) (by decide)
      (by decide) (by decide)⟩

/-! ## Claim C9 (the `cells` counter tracks the filled-cell count) -/

/-- C9: on a fully filled grid the counter's initial value 81 is the
filled-cell count, and one attempt keeps `cells` equal to the number of
nonzero cells: it is untouched when the pick hits an empty cell or the
removal is rejected (grid unchanged), and decremented exactly when a
removal is accepted (one nonzero cell zeroed). -/
theorem c9_cells_tracks_filled_count (g : Grid) (cells : Int)
    (pick : Nat × Nat) (hg : wf9 g) (h1 : pick.1 < 9) (h2 : pick.2 < 9) :
    (complete g → countFilled g = 81) ∧
    (cells = (countFilled g : Int) →
      (attempt g cells pick).2 = (countFilled (attempt g cells pick).1 : Int)) := by
  constructor
  · intro hcomp
    exact countFilled_complete hcomp
  · intro hinv
    exact attempt_tracks hg h1 h2 hinv

/-! ## Claims C2, C4, C7 (properties of the returned puzzle) -/

lemma subsetOf_setCell_zero {g g0 : Grid} (hg : wf9 g) {r c : Nat}
    (hr : r < 9) (hc : c < 9) (hsub : subsetOf g g0) :
    subsetOf (setCell g r c 0) g0 := by
  intro q hq
  rw [cellD_setCell hg hr hc 0 q.1 q.2] at hq ⊢
  split at hq
  · exact absurd rfl hq
  · next hne =>
    rw [if_neg hne]
    exact hsub q hq

set_option maxRecDepth 1000000 in
/-- C2 counterexample: from the fully filled rule-valid grid `gridA` with
difficulty 40 and the concrete pick stream `cexPicks` (40 accepted
removals in the first pass, two more in the second), `remove_cells`
terminates with the puzzle `gridB`, which has only 39 filled cells —
outside the claimed range of 40 to 81 inclusive. -/
theorem c2_counterexample :
    remove_cells 3 gridA 40 cexPicks = some gridB ∧ countFilled gridB = 39 := by
  constructor
  · rfl
  · decide

/-- C2 (amended): whenever `remove_cells` terminates on a fully filled
9 x 9 grid, the returned puzzle has at most `difficulty` filled cells (and
trivially at most 81): the loop can only exit once `cells ≤ difficulty`,
and since a 100-attempt pass may cross the target by more than one
removal, strictly fewer than `difficulty` filled cells are possible
(see the counterexample above), contradicting the claimed lower bound of 40. -/
theorem c2_remove_cells_filled_le_target (g : Grid) (difficulty : Int)
    (picks : Nat → Nat × Nat) (fuel : Nat) (out : Grid)
    (hg : wf9 g) (hcomp : complete g)
    (hpicks : ∀ n, (picks n).1 < 9 ∧ (picks n).2 < 9)
    (hrun : remove_cells fuel g difficulty picks = some out) :
    (countFilled out : Int) ≤ difficulty ∧ countFilled out ≤ 81 := by
  have hstep : ∀ g' cells pick, pick.1 < 9 → pick.2 < 9 →
      (wf9 g' ∧ cells = (countFilled g' : Int)) →
      (wf9 (attempt g' cells pick).1 ∧
        (attempt g' cells pick).2 = (countFilled (attempt g' cells pick).1 : Int)) :=
    fun g' cells pick hp1 hp2 h =>
      ⟨attempt_wf9 h.1 cells hp1 hp2, attempt_tracks h.1 hp1 hp2 h.2⟩
  have hinit : wf9 g ∧ (81 : Int) = (countFilled g : Int) := by
    refine ⟨hg, ?_⟩
    rw [countFilled_complete hcomp]
    rfl
  obtain ⟨cells', ⟨hw, hc⟩, hle⟩ :=
    removeLoop_some hpicks hstep fuel 0 g 81 82 difficulty out hinit hrun
  constructor
  · omega
  · exact countFilled_le_81 out

/-- Witness for the amended C2 at a concrete run (difficulty 81: the first
pass removes cell `(0, 0)` and the loop exits with 80 filled cells). -/
theorem c2_witness :
    wf9 gridA ∧ complete gridA ∧
      ((countFilled gridA1 : Int) ≤ 81 ∧ countFilled gridA1 ≤ 81) :=
  ⟨by decide, by decide,
    c2_remove_cells_filled_le_target gridA 81 constPick 2 gridA1 (by decide)
      (by decide) constPick_bounds (by rfl)⟩

/-- C4: any puzzle returned by `remove_cells` on a fully filled 9 x 9 grid
is uniquely solvable: the counting solver started at the `(0, 0)` cursor
with counter 0 reports exactly 1.  (Invariant: the input grid with no
empty cell has exactly one count, and every accepted removal was guarded
by the oracle reporting exactly 1 on the zeroed grid.) -/
theorem c4_puzzle_uniquely_solvable (g : Grid) (difficulty : Int)
    (picks : Nat → Nat × Nat) (fuel : Nat) (out : Grid)
    (hg : wf9 g) (hcomp : complete g)
    (hpicks : ∀ n, (picks n).1 < 9 ∧ (picks n).2 < 9)
    (hrun : remove_cells fuel g difficulty picks = some out) :
    solve_count 100 out 0 0 = 1 := by
  have hstep : ∀ g' cells pick, pick.1 < 9 → pick.2 < 9 →
      (wf9 g' ∧ solve_count 100 g' 0 0 = 1) →
      (wf9 (attempt g' cells pick).1 ∧
        solve_count 100 (attempt g' cells pick).1 0 0 = 1) := by
    intro g' cells pick hp1 hp2 h
    refine ⟨attempt_wf9 h.1 cells hp1 hp2, ?_⟩
    rcases attempt_cases h.1 cells hp1 hp2 with heq | ⟨_, heq, hcnt⟩ <;> rw [heq]
    · exact h.2
    · exact hcnt
  have hinit : wf9 g ∧ solve_count 100 g 0 0 = 1 :=
    ⟨hg, solve_count_complete hcomp 100 0 0 (by omega) (by omega) (by omega)⟩
  obtain ⟨cells', ⟨hw, hsc⟩, _⟩ :=
    removeLoop_some hpicks hstep fuel 0 g 81 82 difficulty out hinit hrun
  exact hsc

set_option maxRecDepth 100000 in
/-- Witness for C4 at a concrete run. -/
theorem c4_witness :
    wf9 gridA ∧ complete gridA ∧ solve_count 100 gridA1 0 0 = 1 :=
  ⟨by decide, by decide,
    c4_puzzle_uniquely_solvable gridA 81 constPick 2 gridA1 (by decide)
      (by decide) constPick_bounds (by rfl)⟩

/-- C7: every nonzero cell of a puzzle returned by `remove_cells` holds the
value of the corresponding cell of the original input grid — removal only
ever zeroes cells or restores their backed-up original values, so the
puzzle is a subset of the solution. -/
theorem c7_puzzle_subset_of_input (g : Grid) (difficulty : Int)
    (picks : Nat → Nat × Nat) (fuel : Nat) (out : Grid)
    (hg : wf9 g)
    (hpicks : ∀ n, (picks n).1 < 9 ∧ (picks n).2 < 9)
    (hrun : remove_cells fuel g difficulty picks = some out) :
    subsetOf out g := by
  have hstep : ∀ g' cells pick, pick.1 < 9 → pick.2 < 9 →
      (wf9 g' ∧ subsetOf g' g) →
      (wf9 (attempt g' cells pick).1 ∧ subsetOf (attempt g' cells pick).1 g) := by
    intro g' cells pick hp1 hp2 h
    refine ⟨attempt_wf9 h.1 cells hp1 hp2, ?_⟩
    rcases attempt_cases h.1 cells hp1 hp2 with heq | ⟨hnz, heq, _⟩ <;> rw [heq]
    · exact h.2
    · exact subsetOf_setCell_zero h.1 hp1 hp2 h.2
  have hinit : wf9 g ∧ subsetOf g g := ⟨hg, fun q _ => rfl⟩
  obtain ⟨cells', ⟨hw, hsub⟩, _⟩ :=
    removeLoop_some hpicks hstep fuel 0 g 81 82 difficulty out hinit hrun
  exact hsub

set_option maxRecDepth 100000 in
/-- Witness for C7 at a concrete run. -/
theorem c7_witness : wf9 gridA ∧ subsetOf gridA1 gridA :=
  ⟨by decide,
    c7_puzzle_subset_of_input gridA 81 constPick 2 gridA1 (by decide)
      constPick_bounds (by rfl)⟩

/-- Witness for C9 at a concrete input. -/
theorem c9_witness :
    wf9 gridA ∧
      ((complete gridA → countFilled gridA = 81) ∧
        ((81 : Int) = (countFilled gridA : Int) →
          (attempt gridA 81 (0, 0)).2 =
            (countFilled (attempt gridA 81 (0, 0)).1 : Int))) :=
  ⟨by decide,
    c9_cells_tracks_filled_count gridA 81 (0, 0) (by decide) (by decide)
      (by decide)⟩
